import Mathlib

/-!
Verification development for the memory-leak-detection engine
(`tmll/ml/modules/anomaly_detection/memory_leak_detection_module.py`).

The Python module is shallowly embedded here:
* pandas timestamps are rationals (seconds), float values are rationals;
* IEEE NaN is modelled by `Option ℚ` (`RQ`), with NaN-propagating arithmetic
  and NaN-comparisons that are always false, matching Python float semantics;
* fallible Python code (raising `ZeroDivisionError`, `ValueError`, `KeyError`)
  is modelled with `Except String`;
* the external `scipy.stats.linregress` is modelled after scipy's own source
  in exact arithmetic; the two genuinely transcendental ingredients (real
  square root, the Student-t survival function) are passed in as function
  parameters `sqrtA` and `tsf`, constrained in theorems only by properties
  the true functions satisfy (e.g. `tsf df 0 = 1/2`);
* number-to-string rendering (`Formatter.format_bytes`, `"%.2f"` formatting),
  which lives outside `src/`, is likewise passed in as function parameters.
-/

/-- NaN-aware rational values: `none` models an IEEE NaN float. -/
abbrev RQ := Option ℚ

/-- NaN-propagating addition (`x + nan = nan`). -/
def RQ.add : RQ → RQ → RQ
  | some a, some b => some (a + b)
  | _, _ => none

/-- NaN-propagating subtraction. -/
def RQ.sub : RQ → RQ → RQ
  | some a, some b => some (a - b)
  | _, _ => none

/-- NaN-propagating multiplication (`0 * nan = nan`, as for Python floats). -/
def RQ.mul : RQ → RQ → RQ
  | some a, some b => some (a * b)
  | _, _ => none

/-- Strict `<` on NaN-aware values: any comparison with NaN is false. -/
def RQ.ltB : RQ → RQ → Bool
  | some a, some b => decide (a < b)
  | _, _ => false

/-- Python error message for integer/float division by zero. -/
def zeroDivisionErrorMsg : String := "ZeroDivisionError"

/-- Python division `a / b`: raises `ZeroDivisionError` when `b = 0`
(both `int` and `float` division raise in Python; no NaN/inf is produced). -/
def pyDiv (a b : ℚ) : Except String ℚ :=
  if b = 0 then Except.error zeroDivisionErrorMsg else Except.ok (a / b)

/-- Python `min(a, x)` where `x` may be NaN: `min(a, nan)` compares
`nan < a`, which is false, so the result is `a`. -/
def pyMin (a : ℚ) (x : RQ) : ℚ :=
  match x with
  | none => a
  | some q => min a q

/-- Mean of a list of rationals (`sum / len`; callers guard emptiness,
`0` falls out of `0 / 0` in `ℚ` for the empty list). -/
def meanL (l : List ℚ) : ℚ := l.sum / l.length

/-- pandas `Series.mean`: NaN on an empty series. -/
def meanRQ (l : List ℚ) : RQ :=
  if l.isEmpty then none else some (meanL l)

/-- pandas `Series.mean` with `skipna=True` over possibly-NaN entries:
NaN entries are dropped; all-NaN (or empty) yields NaN. -/
def meanSkipNA (l : List RQ) : RQ := meanRQ (l.filterMap id)

/-- Maximum of a list of rationals (callers guard emptiness; `0` default). -/
def maxL : List ℚ → ℚ
  | [] => 0
  | x :: xs => xs.foldl max x

/-- Minimum of a list of rationals (callers guard emptiness; `0` default). -/
def minL : List ℚ → ℚ
  | [] => 0
  | x :: xs => xs.foldl min x

/-- Sample variance with `ddof = 1` (the pandas/numpy `std` default),
defined for lists of length at least 2. -/
def sampleVar (l : List ℚ) : ℚ :=
  (l.map (fun x => (x - meanL l) ^ 2)).sum / ((l.length : ℚ) - 1)

/-- pandas `Series.std` (`ddof = 1`): NaN for fewer than two entries,
otherwise the square root of the sample variance.  `sqrtA` abstracts the
real square root. -/
def sampleStdRQ (sqrtA : ℚ → ℚ) (l : List ℚ) : RQ :=
  if l.length < 2 then none else some (sqrtA (sampleVar l))

/-- Median of a list of rationals (pandas `Series.median` on non-empty
data): middle element of the sorted list, or the mean of the two middle
elements for even length. -/
def medianL (l : List ℚ) : ℚ :=
  let s := List.insertionSort (fun a b => a ≤ b) l
  let n := s.length
  if n % 2 = 1 then s.getD (n / 2) 0
  else (s.getD (n / 2 - 1) 0 + s.getD (n / 2) 0) / 2

/-- Substring test, modelling `str.contains(needle)` on a plain
(non-regex-metacharacter) needle such as `"malloc"` or `"free"`. -/
def strContains (hay needle : String) : Bool :=
  decide (needle.data <:+: hay.data)

/- ------------------------------------------------------------------ -/
/- Data model (lines 16-50 of the source)                              -/
/- ------------------------------------------------------------------ -/

/-- `MemoryLeakSeverity` enum (source lines 16-21). -/
inductive MemoryLeakSeverity where
  | NONE
  | LOW
  | MEDIUM
  | HIGH
  | CRITICAL
deriving DecidableEq

/-- Numeric rank of a severity level, reflecting the `auto()` enum values;
used to state monotonicity. -/
def MemoryLeakSeverity.rank : MemoryLeakSeverity → ℕ
  | .NONE => 1
  | .LOW => 2
  | .MEDIUM => 3
  | .HIGH => 4
  | .CRITICAL => 5

/-- `MemoryThresholds` dataclass (source lines 24-28); the window size
`"1s"` is represented as a duration in seconds. -/
structure MemoryThresholds where
  window_size : ℚ
  fragmentation : ℚ
  growth_slope : ℚ
deriving DecidableEq

/-- Default thresholds (`window_size="1s"`, `fragmentation=0.7`,
`growth_slope=0.5`). -/
def defaultThresholds : MemoryThresholds := ⟨1, 0.7, 0.5⟩

/-- `MemoryMetrics` dataclass (source lines 31-40).  The two regression
coefficients can be NaN floats (degenerate regression), hence `RQ`. -/
structure MemoryMetrics where
  unreleased_allocations : ℕ
  total_allocations : ℕ
  leak_rate : ℚ
  avg_allocation_size : ℚ
  max_continuous_growth_duration : ℚ
  memory_fragmentation_score : ℚ
  regression_slope : RQ
  regression_intercept : RQ
deriving DecidableEq

/- ------------------------------------------------------------------ -/
/- Severity evaluator (`_evaluate_severity`, source lines 373-421)     -/
/- ------------------------------------------------------------------ -/

/-- Severity cascade on the weighted score (source lines 410-419). -/
def severityOfWeighted (w : ℚ) : MemoryLeakSeverity :=
  if w < 0.2 then MemoryLeakSeverity.NONE
  else if w < 0.4 then MemoryLeakSeverity.LOW
  else if w < 0.6 then MemoryLeakSeverity.MEDIUM
  else if w < 0.8 then MemoryLeakSeverity.HIGH
  else MemoryLeakSeverity.CRITICAL

/-- The weighted score of `_evaluate_severity` (source lines 391-401),
as a pure function of metrics and thresholds (defined when no divisor
is zero; the `Except` path of `evaluate_severity` tracks the zero case). -/
def weighted_score (th : MemoryThresholds) (m : MemoryMetrics) : ℚ :=
  0.4 * min 1 (m.leak_rate / th.growth_slope) +
  0.4 * min 1 ((m.unreleased_allocations : ℚ) / (m.total_allocations : ℚ)) +
  0.2 * min 1 (m.memory_fragmentation_score / th.fragmentation)

/-- `_evaluate_severity` (source lines 373-421).  Each Python division is
`pyDiv` (raising `ZeroDivisionError` on a zero divisor, notably when
`metrics.total_allocations == 0`); the confidence formula applies
`min(1.0, ...)` only (no lower clamp), with Python's `min(1.0, nan) = 1.0`. -/
def evaluate_severity (th : MemoryThresholds) (m : MemoryMetrics) (p : RQ) :
    Except String (MemoryLeakSeverity × ℚ) := do
  let gr ← pyDiv m.leak_rate th.growth_slope
  let growth_score := min 1 gr
  let ur ← pyDiv (m.unreleased_allocations : ℚ) (m.total_allocations : ℚ)
  let unreleased_score := min 1 ur
  let fr ← pyDiv m.memory_fragmentation_score th.fragmentation
  let fragmentation_score := min 1 fr
  let weighted := 0.4 * growth_score + 0.4 * unreleased_score + 0.2 * fragmentation_score
  let confidence :=
    pyMin 1 (RQ.add (RQ.mul (some 0.6) (RQ.sub (some 1) p))
                    (some (0.4 * (m.total_allocations : ℚ))))
  pure (severityOfWeighted weighted, confidence)

/- ------------------------------------------------------------------ -/
/- Theorems for C2, C3, C8                                             -/
/- ------------------------------------------------------------------ -/

/-- All-zero metrics record, as produced for the neutral result. -/
def zeroMetrics : MemoryMetrics := ⟨0, 0, 0, 0, 0, 0, some 0, some 0⟩

/-- C3: the claim says that with `total_allocations = 0` the evaluator
computes `unreleased_score = 0` and completes without an arithmetic fault.
The code divides `unreleased_allocations / total_allocations` unguarded, so
the call raises `ZeroDivisionError`: the spec states the intended guard
("must guard division by zero ... never propagate an arithmetic fault"),
and the code omits it.  This theorem evaluates the embedded code at the
failing input. -/
theorem C3_zero_total_allocations_raises :
    evaluate_severity defaultThresholds zeroMetrics (some 1) =
      Except.error zeroDivisionErrorMsg := by
  norm_num [evaluate_severity, pyDiv, defaultThresholds, zeroMetrics, Except.bind, bind]

/-- C2: the evaluator's severity is exactly the threshold cascade on the
weighted score `0.4·growth + 0.4·unreleased + 0.2·fragmentation`; the
cascade maps `w < 0.2` to NONE, `0.2 ≤ w < 0.4` to LOW, `0.4 ≤ w < 0.6`
to MEDIUM, `0.6 ≤ w < 0.8` to HIGH, and `0.8 ≤ w` to CRITICAL; it is
monotone non-decreasing in `w`, and each boundary value maps to the
higher adjacent level. -/
theorem C2_severity_thresholds :
    (∀ (th : MemoryThresholds) (m : MemoryMetrics) (p : RQ)
       (sev : MemoryLeakSeverity) (conf : ℚ),
        th.growth_slope ≠ 0 → m.total_allocations ≠ 0 → th.fragmentation ≠ 0 →
        evaluate_severity th m p = Except.ok (sev, conf) →
        sev = severityOfWeighted (weighted_score th m)) ∧
    (∀ w : ℚ,
        (w < 0.2 → severityOfWeighted w = MemoryLeakSeverity.NONE) ∧
        (0.2 ≤ w → w < 0.4 → severityOfWeighted w = MemoryLeakSeverity.LOW) ∧
        (0.4 ≤ w → w < 0.6 → severityOfWeighted w = MemoryLeakSeverity.MEDIUM) ∧
        (0.6 ≤ w → w < 0.8 → severityOfWeighted w = MemoryLeakSeverity.HIGH) ∧
        (0.8 ≤ w → severityOfWeighted w = MemoryLeakSeverity.CRITICAL)) ∧
    (∀ w1 w2 : ℚ, w1 ≤ w2 →
        (severityOfWeighted w1).rank ≤ (severityOfWeighted w2).rank) ∧
    (severityOfWeighted 0.2 = MemoryLeakSeverity.LOW ∧
     severityOfWeighted 0.4 = MemoryLeakSeverity.MEDIUM ∧
     severityOfWeighted 0.6 = MemoryLeakSeverity.HIGH ∧
     severityOfWeighted 0.8 = MemoryLeakSeverity.CRITICAL) := by
  refine ⟨?_, ?_, ?_, ?_⟩
  · intro th m p sev conf hgs htot hfr heval
    have htotQ : ((m.total_allocations : ℚ)) ≠ 0 := Nat.cast_ne_zero.mpr htot
    simp only [evaluate_severity, pyDiv, if_neg hgs, if_neg htotQ, if_neg hfr,
      Except.bind, bind, pure, Except.pure, Except.ok.injEq, Prod.mk.injEq] at heval
    exact heval.1.symm
  · intro w
    refine ⟨?_, ?_, ?_, ?_, ?_⟩ <;> intro h <;>
      first
      | (unfold severityOfWeighted; split_ifs <;> first | rfl | (exfalso; linarith))
      | (intro h2; unfold severityOfWeighted; split_ifs <;>
          first | rfl | (exfalso; linarith))
  · intro w1 w2 h
    unfold severityOfWeighted
    split_ifs <;> simp only [MemoryLeakSeverity.rank] <;>
      first | decide | (exfalso; linarith)
  · refine ⟨?_, ?_, ?_, ?_⟩ <;> norm_num [severityOfWeighted]

/-- Concrete thresholds for the C2 witness. -/
def c2Th : MemoryThresholds := ⟨1, 0.7, 0.5⟩

/-- Concrete metrics for the C2 witness: 1 of 4 allocations unreleased. -/
def c2M : MemoryMetrics := ⟨1, 4, 0, 0, 0, 0, some 0, some 0⟩

/-- C2 witness: the evaluator hypotheses hold at a concrete input. -/
theorem C2_severity_thresholds_witness :
    MemoryLeakSeverity.NONE = severityOfWeighted (weighted_score c2Th c2M) :=
  C2_severity_thresholds.1 c2Th c2M (some 0.5) MemoryLeakSeverity.NONE 1
    (by norm_num [c2Th]) (by norm_num [c2M]) (by norm_num [c2Th])
    (by norm_num [evaluate_severity, pyDiv, pyMin, c2Th, c2M,
          RQ.add, RQ.mul, RQ.sub, Except.bind, bind, pure, Except.pure,
          severityOfWeighted])

/-- Metrics for the C8 counterexample: one allocation, nothing else. -/
def c8M : MemoryMetrics := ⟨0, 1, 0, 0, 0, 0, some 0, some 0⟩

/-- C8 counterexample: at `p_value = 2` (sign/magnitude unrestricted, as the
claim quantifies) the code returns confidence `min(1, 0.6·(1−2)+0.4·1) = −0.2`,
which is negative — the code has no lower clamp at 0, so the confidence is
not `clamp(..., 0, 1)` and does not always lie within `[0, 1]`. -/
theorem C8_confidence_counterexample :
    evaluate_severity defaultThresholds c8M (some 2) =
      Except.ok (MemoryLeakSeverity.NONE, -(1/5)) ∧ ¬ (0 ≤ (-(1/5) : ℚ)) := by
  constructor
  · norm_num [evaluate_severity, pyDiv, pyMin, defaultThresholds, c8M,
      RQ.add, RQ.mul, RQ.sub, Except.bind, bind, pure, Except.pure,
      severityOfWeighted]
  · norm_num

/-- C8 amended: the confidence returned by the evaluator equals
`min(1, 0.6·(1 − p) + 0.4·total_allocations)` — an upper clamp only.  It
is always at most 1, and it is non-negative (hence in `[0, 1]`) whenever
the p-value lies in `[0, 1]`; for `p > 1` it can be negative. -/
theorem C8_confidence_amended :
    ∀ (th : MemoryThresholds) (m : MemoryMetrics) (p : ℚ)
      (sev : MemoryLeakSeverity) (conf : ℚ),
      th.growth_slope ≠ 0 → m.total_allocations ≠ 0 → th.fragmentation ≠ 0 →
      evaluate_severity th m (some p) = Except.ok (sev, conf) →
      conf = min 1 (0.6 * (1 - p) + 0.4 * (m.total_allocations : ℚ)) ∧
      conf ≤ 1 ∧ (0 ≤ p → p ≤ 1 → 0 ≤ conf) := by
  intro th m p sev conf hgs htot hfr heval
  have htotQ : ((m.total_allocations : ℚ)) ≠ 0 := Nat.cast_ne_zero.mpr htot
  simp only [evaluate_severity, pyDiv, if_neg hgs, if_neg htotQ, if_neg hfr,
    Except.bind, bind, pure, Except.pure, Except.ok.injEq, Prod.mk.injEq,
    pyMin, RQ.add, RQ.mul, RQ.sub] at heval
  have hconf : conf = min 1 (0.6 * (1 - p) + 0.4 * (m.total_allocations : ℚ)) :=
    heval.2.symm
  refine ⟨hconf, ?_, ?_⟩
  · rw [hconf]; exact min_le_left _ _
  · intro hp0 hp1
    rw [hconf]
    have hc : (0 : ℚ) ≤ (m.total_allocations : ℚ) := Nat.cast_nonneg _
    have : (0 : ℚ) ≤ 0.6 * (1 - p) + 0.4 * (m.total_allocations : ℚ) := by nlinarith
    exact le_min (by norm_num) this

/-- C8 amended witness: concrete evaluator run with `p = 1/2`, one
allocation in four unreleased. -/
theorem C8_confidence_amended_witness :
    (1 : ℚ) = min 1 (0.6 * (1 - 0.5) + 0.4 * ((4 : ℕ) : ℚ)) ∧
    (1 : ℚ) ≤ 1 ∧ (0 ≤ (0.5 : ℚ) → (0.5 : ℚ) ≤ 1 → 0 ≤ (1 : ℚ)) := by
  have h := C8_confidence_amended c2Th c2M 0.5 MemoryLeakSeverity.NONE 1
    (by norm_num [c2Th]) (by norm_num [c2M]) (by norm_num [c2Th])
    (by norm_num [evaluate_severity, pyDiv, pyMin, c2Th, c2M,
          RQ.add, RQ.mul, RQ.sub, Except.bind, bind, pure, Except.pure,
          severityOfWeighted])
  simpa [c2M] using h

/- ------------------------------------------------------------------ -/
/- Event classifier (`_post_process`, source lines 100-117)            -/
/- ------------------------------------------------------------------ -/

/-- Substring marking allocation events. -/
def mallocStr : String := "malloc"

/-- Substring marking deallocation events. -/
def freeStr : String := "free"

/-- Canonical allocation category label. -/
def allocationCat : String := "allocation"

/-- Canonical deallocation category label. -/
def deallocationCat : String := "deallocation"

/-- Category label for rows that are neither allocation nor deallocation. -/
def otherCat : String := "other"

/-- The empty string. -/
def emptyStr : String := ""

/-- Event-category assignment (source lines 108-110 and 129-131): start
from `"other"`, overwrite with `"allocation"` on a `"malloc"` substring
match, then overwrite with `"deallocation"` on a `"free"` substring match,
in that order, so the `"free"` assignment wins when both match. -/
def classify_event_type (et : String) : String :=
  let c := otherCat
  let c := if strContains et mallocStr then allocationCat else c
  if strContains et freeStr then deallocationCat else c

/-- A classified event row: timestamp (seconds), raw `Event type` string,
derived `event_category`, `allocation_size` (NaN-able float) and `ptr`
(coerced to string). -/
structure Event where
  time : ℚ
  eventType : String
  category : String
  size : Option ℚ
  ptr : String
deriving DecidableEq

/-- Placeholder event used as the default of `headD` on lists that are
provably non-empty at their use sites. -/
def defaultEvent : Event := ⟨0, emptyStr, otherCat, none, emptyStr⟩

/-- A raw events-table row before `_post_process`. -/
structure RawEvent where
  time : ℚ
  eventType : String
  size : Option ℚ
  ptr : String
deriving DecidableEq

/-- The raw events table: rows plus whether the required `size`/`ptr`
columns are present. -/
structure RawEventsTable where
  hasSizePtrColumns : Bool
  rows : List RawEvent
deriving DecidableEq

/-- Classification of one raw row (category assignment plus the
`size`/`ptr` type coercions of source lines 113-115). -/
def toClassifiedEvent (r : RawEvent) : Event :=
  ⟨r.time, r.eventType, classify_event_type r.eventType, r.size, r.ptr⟩

/-- `_post_process` (source lines 100-117): a missing table stays missing;
a table lacking the `size`/`ptr` columns is replaced by an empty table;
otherwise rows are classified and the `"other"` rows dropped. -/
def post_process (raw : Option RawEventsTable) : Option (List Event) :=
  match raw with
  | none => none
  | some tbl =>
    if tbl.hasSizePtrColumns = false then some []
    else some ((tbl.rows.map toClassifiedEvent).filter
        (fun e => decide (e.category ≠ otherCat)))

/-- C10: a row whose event-type string contains both `"malloc"` and
`"free"` ends with category `"deallocation"` (the later `"free"`
assignment overwrites the `"malloc"` one), and no such row ever appears
among the allocation-category rows of the post-processed table. -/
theorem C10_malloc_free_overwrite :
    ∀ s : String, strContains s mallocStr = true → strContains s freeStr = true →
      classify_event_type s = deallocationCat ∧
      (∀ (tbl : RawEventsTable) (l : List Event),
        post_process (some tbl) = some l →
        ∀ e ∈ l.filter (fun e => decide (e.category = allocationCat)),
          e.eventType ≠ s) := by
  intro s h1 h2
  have hcls : classify_event_type s = deallocationCat := by
    simp [classify_event_type, h1, h2]
  refine ⟨hcls, ?_⟩
  intro tbl l hpost e he hes
  have hmem : e ∈ l ∧ e.category = allocationCat := by
    have := List.mem_filter.mp he
    exact ⟨this.1, by simpa using this.2⟩
  rcases hmem with ⟨hel, hcat⟩
  by_cases hcols : tbl.hasSizePtrColumns = false
  · simp [post_process, hcols] at hpost
    subst hpost
    simp at hel
  · simp [post_process, hcols] at hpost
    subst hpost
    rcases List.mem_filter.mp hel with ⟨hmap, _⟩
    rcases List.mem_map.mp hmap with ⟨r, _, hre⟩
    have hcateq : e.category = classify_event_type e.eventType := by
      rw [← hre]; rfl
    rw [hes, hcls] at hcateq
    rw [hcat] at hcateq
    simp [allocationCat, deallocationCat] at hcateq

/-- Concrete event-type string containing both substrings. -/
def c10Str : String := "malloc_then_free"

/-- C10 witness: the hypotheses hold at a concrete event-type string. -/
theorem C10_malloc_free_overwrite_witness :
    classify_event_type c10Str = deallocationCat :=
  (C10_malloc_free_overwrite c10Str (by decide) (by decide)).1

/- ------------------------------------------------------------------ -/
/- Lifecycle tracker (`_track_pointer_lifecycle`, source lines 197-240)-/
/- ------------------------------------------------------------------ -/

/-- One row of the lifecycle table: a retained allocation joined (left
join on `ptr`) with a deallocation time when one exists; `lifetime` is
`deallocation_time − allocation_time` clipped at 0, NaN when unmatched. -/
structure LifecycleRow where
  ptr : String
  allocation_time : ℚ
  size : Option ℚ
  eventType : String
  deallocation_time : Option ℚ
  lifetime : Option ℚ
deriving DecidableEq

/-- Build one merged lifecycle row from an allocation event and an
optional deallocation timestamp (source lines 225-237). -/
def mkLifecycleRow (a : Event) (dt : Option ℚ) : LifecycleRow :=
  ⟨a.ptr, a.time, a.size, a.eventType, dt, dt.map (fun t => max 0 (t - a.time))⟩

/-- Keep only the first row for each pointer value, in first-occurrence
order.  This models `groupby("ptr").first()` of source line 222; the
pandas groupby additionally sorts the resulting rows by `ptr`, a pure
reordering that none of the verified properties depend on. -/
def dedupFirstByPtr : List Event → List Event
  | [] => []
  | a :: rest => a :: dedupFirstByPtr (rest.filter (fun e => decide (e.ptr ≠ a.ptr)))
termination_by l => l.length
decreasing_by simpa using Nat.lt_succ_of_le (List.length_filter_le _ _)

/-- The allocation rows of a classified events table. -/
def allocationsOf (tbl : List Event) : List Event :=
  tbl.filter (fun e => decide (e.category = allocationCat))

/-- The deallocation rows of a classified events table. -/
def deallocationsOf (tbl : List Event) : List Event :=
  tbl.filter (fun e => decide (e.category = deallocationCat))

/-- The retained allocation records (source lines 219-222): the
allocations, deduplicated per pointer exactly when a duplicate pointer
exists (`if any(duplicate_allocs > 1)`). -/
def allocation_records_of (allocations : List Event) : List Event :=
  if (allocations.map Event.ptr).Nodup then allocations
  else dedupFirstByPtr allocations

/-- `_track_pointer_lifecycle` (source lines 197-240): split into
allocations and deallocations, deduplicate allocations per pointer, and
left-join each retained allocation with the deallocations sharing its
pointer (the pandas merge yields one row per matching deallocation, and
one unmatched row when there is none). -/
def track_pointer_lifecycle (events : List Event) : List LifecycleRow :=
  if events.isEmpty then []
  else
    let deallocations := deallocationsOf events
    let allocation_records := allocation_records_of (allocationsOf events)
    allocation_records.flatMap (fun a =>
      let ds := deallocations.filter (fun d => decide (d.ptr = a.ptr))
      if ds.isEmpty then [mkLifecycleRow a none]
      else ds.map (fun d => mkLifecycleRow a (some d.time)))

/-- The first allocation row carrying a given pointer, in table order
(the row `groupby("ptr").first()` retains). -/
def firstAllocWithPtr (tbl : List Event) (p : String) : Event :=
  ((allocationsOf tbl).filter (fun e => decide (e.ptr = p))).headD defaultEvent

theorem dedupFirstByPtr_filter (l : List Event) (p : String) :
    (dedupFirstByPtr l).filter (fun e => decide (e.ptr = p)) =
      (l.filter (fun e => decide (e.ptr = p))).take 1 := by
  induction l using dedupFirstByPtr.induct with
  | case1 => simp [dedupFirstByPtr]
  | case2 a rest ih =>
    rw [dedupFirstByPtr]
    by_cases ha : a.ptr = p
    · have hpa : decide (a.ptr = p) = true := by simp [ha]
      have hnil : (rest.filter (fun e => decide (e.ptr ≠ a.ptr))).filter
          (fun e => decide (e.ptr = p)) = [] := by
        rw [List.filter_filter]
        apply List.filter_eq_nil_iff.mpr
        intro e _ h
        simp only [Bool.and_eq_true, decide_eq_true_eq] at h
        exact h.2 (h.1.trans ha.symm)
      rw [List.filter_cons, List.filter_cons, if_pos hpa, if_pos hpa, ih, hnil]
      rfl
    · have hpa : ¬ (decide (a.ptr = p) = true) := by simp [ha]
      have hcong : (rest.filter (fun e => decide (e.ptr ≠ a.ptr))).filter
          (fun e => decide (e.ptr = p)) =
          rest.filter (fun e => decide (e.ptr = p)) := by
        rw [List.filter_filter]
        apply List.filter_congr
        intro e _
        by_cases hep : e.ptr = p
        · have hpn : p ≠ a.ptr := fun hh => ha hh.symm
          simp [hep, hpn]
        · simp [hep]
      rw [List.filter_cons, List.filter_cons, if_neg hpa, if_neg hpa, ih, hcong]

theorem filter_ptr_length_le_one (l : List Event) (p : String)
    (h : (l.map Event.ptr).Nodup) :
    (l.filter (fun e => decide (e.ptr = p))).length ≤ 1 := by
  induction l with
  | nil => simp
  | cons a rest ih =>
    simp only [List.map_cons, List.nodup_cons] at h
    by_cases ha : a.ptr = p
    · have hnil : rest.filter (fun e => decide (e.ptr = p)) = [] := by
        apply List.filter_eq_nil_iff.mpr
        intro e he
        simp only [decide_eq_true_eq]
        intro hep
        exact h.1 (List.mem_map.mpr ⟨e, he, hep.trans ha.symm⟩)
      simp [List.filter_cons, ha, hnil]
    · simpa [List.filter_cons, ha] using ih h.2

theorem take_one_of_length_le_one {α : Type} (l : List α) (h : l.length ≤ 1) :
    l = l.take 1 := by
  match l with
  | [] => rfl
  | [a] => rfl
  | a :: b :: t => simp at h

theorem allocation_records_filter (allocations : List Event) (p : String) :
    (allocation_records_of allocations).filter (fun e => decide (e.ptr = p)) =
      (allocations.filter (fun e => decide (e.ptr = p))).take 1 := by
  unfold allocation_records_of
  split_ifs with h
  · exact take_one_of_length_le_one _ (filter_ptr_length_le_one _ _ h)
  · exact dedupFirstByPtr_filter _ _

theorem filter_ptr_flatMap (records : List Event) (f : Event → List LifecycleRow)
    (hf : ∀ a r, r ∈ f a → r.ptr = a.ptr) (p : String) :
    (records.flatMap f).filter (fun r => decide (r.ptr = p)) =
      (records.filter (fun a => decide (a.ptr = p))).flatMap f := by
  induction records with
  | nil => simp
  | cons a rest ih =>
    simp only [List.flatMap_cons, List.filter_append, List.filter_cons]
    by_cases ha : a.ptr = p
    · have hself : (f a).filter (fun r => decide (r.ptr = p)) = f a :=
        List.filter_eq_self.mpr (fun r hr => by
          simp only [hf a r hr, decide_eq_true_eq]
          exact ha)
      simp [ha, hself, ih, List.flatMap_cons]
    · have hnil : (f a).filter (fun r => decide (r.ptr = p)) = [] :=
        List.filter_eq_nil_iff.mpr (fun r hr => by
          simp only [hf a r hr, decide_eq_true_eq]
          exact ha)
      simp [ha, hnil, ih]

theorem track_pointer_lifecycle_eq (tbl : List Event) (h : tbl.isEmpty = false) :
    track_pointer_lifecycle tbl =
      (allocation_records_of (allocationsOf tbl)).flatMap (fun a =>
        let ds := (deallocationsOf tbl).filter (fun d => decide (d.ptr = a.ptr))
        if ds.isEmpty then [mkLifecycleRow a none]
        else ds.map (fun d => mkLifecycleRow a (some d.time))) := by
  simp [track_pointer_lifecycle, h]

/-- A concrete pointer token. -/
def ptrA : String := "0x1000"

/-- Scenario D table: two allocations and one deallocation sharing one
pointer identity. -/
def scenarioD : List Event :=
  [⟨0, mallocStr, allocationCat, some 64, ptrA⟩,
   ⟨1, freeStr, deallocationCat, none, ptrA⟩,
   ⟨2, mallocStr, allocationCat, some 32, ptrA⟩]

/-- C7 amended: provided every pointer identity carries at most one
deallocation event (the left join multiplies rows otherwise), the tracker
produces exactly one lifecycle row per retained allocation pointer; the
row kept for a pointer is the first allocation with that pointer in table
order, which is the earliest one when the table is ordered by timestamp;
and scenario D (two allocations, one deallocation, one pointer) yields
exactly one lifecycle row. -/
theorem C7_one_row_per_retained_allocation :
    (∀ (tbl : List Event) (p : String),
      (∀ q : String,
        ((deallocationsOf tbl).filter (fun e => decide (e.ptr = q))).length ≤ 1) →
      p ∈ (allocationsOf tbl).map Event.ptr →
      ((track_pointer_lifecycle tbl).filter (fun r => decide (r.ptr = p))).length = 1 ∧
      (∀ r ∈ track_pointer_lifecycle tbl, r.ptr = p →
        r.allocation_time = (firstAllocWithPtr tbl p).time) ∧
      ((tbl.map Event.time).Chain' (· ≤ ·) →
        ∀ a ∈ allocationsOf tbl, a.ptr = p →
          (firstAllocWithPtr tbl p).time ≤ a.time)) ∧
    (track_pointer_lifecycle scenarioD).length = 1 := by
  constructor
  · intro tbl p hd hp
    rcases List.mem_map.mp hp with ⟨a0, ha0mem, ha0ptr⟩
    have htblne : tbl.isEmpty = false := by
      rcases List.mem_filter.mp ha0mem with ⟨hin, _⟩
      cases tbl
      · cases hin
      · rfl
    have htrack := track_pointer_lifecycle_eq tbl htblne
    have hf : ∀ a r, r ∈ (fun a : Event =>
        let ds := (deallocationsOf tbl).filter (fun d => decide (d.ptr = a.ptr))
        if ds.isEmpty then [mkLifecycleRow a none]
        else ds.map (fun d => mkLifecycleRow a (some d.time))) a → r.ptr = a.ptr := by
      intro a r hr
      simp only at hr
      split at hr
      · rcases List.mem_singleton.mp hr with rfl
        rfl
      · rcases List.mem_map.mp hr with ⟨d, _, rfl⟩
        rfl
    have hsplit := filter_ptr_flatMap (allocation_records_of (allocationsOf tbl)) _ hf p
    have hrec := allocation_records_filter (allocationsOf tbl) p
    set L := (allocationsOf tbl).filter (fun e => decide (e.ptr = p)) with hLdef
    have hLa0 : a0 ∈ L := List.mem_filter.mpr ⟨ha0mem, by simp [ha0ptr]⟩
    obtain ⟨b, t, hL⟩ : ∃ b t, L = b :: t := by
      cases hLcases : L with
      | nil => rw [hLcases] at hLa0; cases hLa0
      | cons b t => exact ⟨b, t, rfl⟩
    have hbmemL : b ∈ L := by rw [hL]; exact List.mem_cons_self _ _
    have hbp : b.ptr = p := by
      have := (List.mem_filter.mp hbmemL).2
      simpa using this
    have hfirst : firstAllocWithPtr tbl p = b := by
      unfold firstAllocWithPtr
      rw [← hLdef, hL]
      rfl
    have htake : L.take 1 = [b] := by rw [hL]; rfl
    have hfilter_track :
        (track_pointer_lifecycle tbl).filter (fun r => decide (r.ptr = p)) =
          (let ds := (deallocationsOf tbl).filter (fun d => decide (d.ptr = b.ptr))
           if ds.isEmpty then [mkLifecycleRow b none]
           else ds.map (fun d => mkLifecycleRow b (some d.time))) := by
      rw [htrack, hsplit, hrec, htake]
      simp [List.flatMap_cons]
    have hlen : ((track_pointer_lifecycle tbl).filter
        (fun r => decide (r.ptr = p))).length = 1 := by
      rw [hfilter_track]
      simp only
      split
      · rfl
      · rename_i hne
        have h1 : ((deallocationsOf tbl).filter
            (fun d => decide (d.ptr = b.ptr))).length ≤ 1 := by
          rw [hbp]; exact hd p
        have h2 : ((deallocationsOf tbl).filter
            (fun d => decide (d.ptr = b.ptr))).length ≠ 0 := by
          intro h0
          exact hne (List.isEmpty_iff_length_eq_zero.mpr h0)
        rw [List.length_map]
        omega
    refine ⟨hlen, ?_, ?_⟩
    · intro r hr hrp
      have hrmem : r ∈ (track_pointer_lifecycle tbl).filter
          (fun x => decide (x.ptr = p)) :=
        List.mem_filter.mpr ⟨hr, by simp [hrp]⟩
      rw [hfilter_track] at hrmem
      rw [hfirst]
      simp only at hrmem
      split at hrmem
      · rcases List.mem_singleton.mp hrmem with rfl
        rfl
      · rcases List.mem_map.mp hrmem with ⟨d, _, rfl⟩
        rfl
    · intro hsort a hamem hap
      have pw : List.Pairwise (· ≤ ·) (tbl.map Event.time) :=
        List.chain'_iff_pairwise.mp hsort
      have pw2 : List.Pairwise (fun x y : Event => x.time ≤ y.time) tbl :=
        (List.pairwise_map).mp pw
      have hsubL : L.Sublist tbl :=
        (List.filter_sublist _).trans (List.filter_sublist _)
      have pwL : List.Pairwise (fun x y : Event => x.time ≤ y.time) L :=
        pw2.sublist hsubL
      have haL : a ∈ L := List.mem_filter.mpr ⟨hamem, by simp [hap]⟩
      rw [hfirst]
      rw [hL] at haL pwL
      rcases List.mem_cons.mp haL with rfl | hat
      · exact le_refl _
      · exact (List.pairwise_cons.mp pwL).1 a hat
  · simp [track_pointer_lifecycle, scenarioD, allocationsOf, deallocationsOf,
      allocation_records_of, dedupFirstByPtr, mkLifecycleRow, ptrA, allocationCat,
      deallocationCat, mallocStr, freeStr, List.filter_cons, List.flatMap]

/-- Table with one allocation and two deallocations of the same pointer
(a double free). -/
def c7DoubleFree : List Event :=
  [⟨0, mallocStr, allocationCat, some 64, ptrA⟩,
   ⟨1, freeStr, deallocationCat, none, ptrA⟩,
   ⟨2, freeStr, deallocationCat, none, ptrA⟩]

/-- C7 counterexample: with two deallocation events on one pointer the
left join produces two lifecycle rows for the single retained allocation,
so the tracker does not produce exactly one lifecycle record per retained
allocation on every event table. -/
theorem C7_counterexample :
    (track_pointer_lifecycle c7DoubleFree).length = 2 ∧
    (allocation_records_of (allocationsOf c7DoubleFree)).length = 1 := by
  constructor <;>
    simp [track_pointer_lifecycle, c7DoubleFree, allocationsOf, deallocationsOf,
      allocation_records_of, dedupFirstByPtr, mkLifecycleRow, ptrA, allocationCat,
      deallocationCat, mallocStr, freeStr, List.filter_cons, List.flatMap]

/-- C7 witness: the amended theorem applied to scenario D at its pointer. -/
theorem C7_one_row_per_retained_allocation_witness :
    ((track_pointer_lifecycle scenarioD).filter
      (fun r => decide (r.ptr = ptrA))).length = 1 :=
  (C7_one_row_per_retained_allocation.1 scenarioD ptrA
    (fun q => le_trans (List.length_filter_le _ _)
      (le_of_eq (by simp [deallocationsOf, scenarioD, allocationCat,
        deallocationCat, mallocStr, freeStr, ptrA, List.filter_cons])))
    (by simp [allocationsOf, scenarioD, allocationCat, deallocationCat,
        mallocStr, freeStr, ptrA, List.filter_cons])).1

/- ------------------------------------------------------------------ -/
/- Trend analyzer (`_analyze_memory_trend`, source lines 242-284)      -/
/- ------------------------------------------------------------------ -/

/-- scipy error message for empty regression inputs. -/
def emptyInputMsg : String := "ValueError: Inputs must not be empty."

/-- scipy error message for a constant-x regression with several samples. -/
def identicalXMsg : String := "ValueError: all x values are identical"

/-- pandas `KeyError` stand-in for reading a key of an empty dict. -/
def keyErrorMsg : String := "KeyError"

/-- scipy's `TINY` regularizer in the t-statistic denominator. -/
def TINY : ℚ := 1 / 10 ^ 20

/-- Result record of `scipy.stats.linregress`: slope/intercept/p-value can
be NaN floats on degenerate input (hence `RQ`); `r` is always finite
because scipy zeroes it explicitly when a variance vanishes. -/
structure LinregressResult where
  slope : RQ
  intercept : RQ
  r : ℚ
  p : RQ
deriving DecidableEq

/-- scipy's `ssxm`: mean squared deviation of the `x` sample. -/
def ssxmOf (xs : List ℚ) : ℚ :=
  meanL (xs.map (fun x => (x - meanL xs) ^ 2))

/-- scipy's `ssym`: mean squared deviation of the `y` sample. -/
def ssymOf (ys : List ℚ) : ℚ :=
  meanL (ys.map (fun y => (y - meanL ys) ^ 2))

/-- scipy's `ssxym`: mean cross deviation product. -/
def ssxymOf (xs ys : List ℚ) : ℚ :=
  meanL (List.zipWith (fun x y => (x - meanL xs) * (y - meanL ys)) xs ys)

/-- scipy's raw correlation coefficient: zeroed when a variance
vanishes. -/
def r0Of (sqrtA : ℚ → ℚ) (xs ys : List ℚ) : ℚ :=
  if ssxmOf xs = 0 ∨ ssymOf ys = 0 then 0
  else ssxymOf xs ys / sqrtA (ssxmOf xs * ssymOf ys)

/-- scipy's correlation coefficient, clipped to `[-1, 1]` against
numerical error. -/
def rOf (sqrtA : ℚ → ℚ) (xs ys : List ℚ) : ℚ :=
  if r0Of sqrtA xs ys > 1 then 1
  else if r0Of sqrtA xs ys < -1 then -1
  else r0Of sqrtA xs ys

/-- scipy's slope `ssxym / ssxm`: the float `0 / 0 = NaN` when `ssxm = 0`
(by Cauchy-Schwarz `ssxym` vanishes with `ssxm`). -/
def slopeOf (xs ys : List ℚ) : RQ :=
  if ssxmOf xs = 0 then none else some (ssxymOf xs ys / ssxmOf xs)

/-- Degrees of freedom `n - 2`. -/
def dfOf (xs : List ℚ) : ℤ := (xs.length : ℤ) - 2

/-- Argument of the square root in scipy's t-statistic. -/
def targOf (sqrtA : ℚ → ℚ) (xs ys : List ℚ) : ℚ :=
  ((dfOf xs : ℤ) : ℚ) /
    ((1 - rOf sqrtA xs ys + TINY) * (1 + rOf sqrtA xs ys + TINY))

/-- scipy's t-statistic `r·sqrt(df / ((1 − r + TINY)(1 + r + TINY)))`;
the square root of a negative argument is NaN, and `r·NaN = NaN`. -/
def tOf (sqrtA : ℚ → ℚ) (xs ys : List ℚ) : RQ :=
  RQ.mul (some (rOf sqrtA xs ys))
    (if targOf sqrtA xs ys < 0 then none else some (sqrtA (targOf sqrtA xs ys)))

/-- scipy's two-sided p-value: special-cased for `n = 2`; otherwise
`2·sf(|t|, df)`, NaN propagating. -/
def pOf (sqrtA : ℚ → ℚ) (tsf : ℤ → ℚ → ℚ) (xs ys : List ℚ) : RQ :=
  if xs.length = 2 then some (if ys.getD 0 0 = ys.getD 1 0 then 1 else 0)
  else RQ.mul (some 2) ((tOf sqrtA xs ys).map (fun tv => tsf (dfOf xs) |tv|))

/-- Modelled from the spec (ordinary least squares of usage against
elapsed seconds with a two-sided p-value for zero slope) and from scipy's
own source: `scipy.stats.linregress` is external library code absent from
`src/`.  Exact rational arithmetic replaces floats; NaN is `none`;
`sqrtA` stands for the real square root and `tsf df x` for the Student-t
survival function `sf(x, df)`.  Matching scipy: empty input raises;
constant `x` with more than one sample raises `ValueError`; the slope
`ssxym / ssxm` is NaN when `ssxm = 0` (the float `0/0`, since by
Cauchy-Schwarz `ssxym` vanishes with `ssxm`); intercept is
`mean(y) − slope·mean(x)`. -/
def linregress (sqrtA : ℚ → ℚ) (tsf : ℤ → ℚ → ℚ) (xs ys : List ℚ) :
    Except String LinregressResult :=
  if xs.isEmpty || ys.isEmpty then Except.error emptyInputMsg
  else if xs.all (fun x => decide (x = xs.headD 0)) && decide (xs.length > 1) then
    Except.error identicalXMsg
  else
    Except.ok
      ⟨slopeOf xs ys,
       RQ.sub (some (meanL ys)) (RQ.mul (slopeOf xs ys) (some (meanL xs))),
       rOf sqrtA xs ys,
       pOf sqrtA tsf xs ys⟩

/-- Modelled from the spec: the data preprocessor's `normalize` (external
to `src/`) pre-scales the memory series to `[0, 1]` by dividing it by its
own maximum; timestamps are untouched. -/
def normalize_series (l : List (ℚ × ℚ)) : List (ℚ × ℚ) :=
  let mx := maxL (l.map Prod.snd)
  l.map (fun p => (p.1, p.2 / mx))

/-- Time-based rolling mean, accumulator recursion: for each sample, the
window is the samples already seen (plus the current one) whose timestamp
lies in the half-open interval `(t − w, t]` — pandas offset windows are
right-closed with `min_periods = 1`, so the mean is always defined. -/
def rollingMeanAux (w : ℚ) : List (ℚ × ℚ) → List (ℚ × ℚ) → List (ℚ × ℚ)
  | _, [] => []
  | seen, q :: rest =>
    let win := (q :: seen).filter (fun s => decide (q.1 - w < s.1))
    (q.1, meanL (win.map Prod.snd)) :: rollingMeanAux w (q :: seen) rest

/-- Rolling mean over a time-indexed series (source line 260). -/
def rollingMean (w : ℚ) (l : List (ℚ × ℚ)) : List (ℚ × ℚ) :=
  rollingMeanAux w [] l

/-- Time-based rolling standard deviation (source line 261): sample std
(`ddof = 1`), NaN on windows with a single sample. -/
def rollingStdAux (sqrtA : ℚ → ℚ) (w : ℚ) :
    List (ℚ × ℚ) → List (ℚ × ℚ) → List (ℚ × RQ)
  | _, [] => []
  | seen, q :: rest =>
    let win := (q :: seen).filter (fun s => decide (q.1 - w < s.1))
    (q.1, sampleStdRQ sqrtA (win.map Prod.snd)) :: rollingStdAux sqrtA w (q :: seen) rest

/-- Rolling standard deviation over a time-indexed series. -/
def rollingStd (sqrtA : ℚ → ℚ) (w : ℚ) (l : List (ℚ × ℚ)) : List (ℚ × RQ) :=
  rollingStdAux sqrtA w [] l

/-- Output record of `_analyze_memory_trend` (source lines 275-284). -/
structure TrendResult where
  slope : RQ
  intercept : RQ
  r_squared : ℚ
  p_value : RQ
  growth_rate : ℚ
  is_significant : Bool
  rolling_mean : List (ℚ × ℚ)
  rolling_std : List (ℚ × RQ)
deriving DecidableEq

/-- Timestamps of the (normalized) memory table converted to seconds from
the first sample (source line 256). -/
def elapsedTimes (mem : List (ℚ × ℚ)) : List ℚ :=
  (normalize_series mem).map
    (fun q => q.1 - ((normalize_series mem).map Prod.fst).headD 0)

/-- Values of the normalized memory table (`memory_df["Memory Usage"]`). -/
def normalizedValues (mem : List (ℚ × ℚ)) : List ℚ :=
  (normalize_series mem).map Prod.snd

/-- The trend dict built from the regression result and rolling series
(source lines 270-284): `is_significant = p < 0.05`,
`is_increasing = slope > 0`, `growth_rate = slope if is_increasing else 0`
(NaN comparisons are false). -/
def mkTrendResult (lr : LinregressResult) (rmean : List (ℚ × ℚ))
    (rstd : List (ℚ × RQ)) : TrendResult :=
  { slope := lr.slope
    intercept := lr.intercept
    r_squared := lr.r ^ 2
    p_value := lr.p
    growth_rate := if RQ.ltB (some 0) lr.slope then lr.slope.getD 0 else 0
    is_significant := RQ.ltB lr.p (some 0.05)
    rolling_mean := rmean
    rolling_std := rstd }

/-- `_analyze_memory_trend` (source lines 242-284): on an absent/empty
memory table the source returns an empty dict (`none` here); otherwise it
normalizes the series, converts timestamps to seconds from the first
sample, computes rolling statistics over the normalized series, and runs
the regression on (elapsed seconds, normalized values). -/
def analyze_memory_trend (sqrtA : ℚ → ℚ) (tsf : ℤ → ℚ → ℚ) (w : ℚ)
    (mem : List (ℚ × ℚ)) : Except String (Option TrendResult) :=
  if mem.isEmpty then Except.ok none
  else
    match linregress sqrtA tsf (elapsedTimes mem) (normalizedValues mem) with
    | Except.error e => Except.error e
    | Except.ok lr =>
      Except.ok (some (mkTrendResult lr (rollingMean w (normalize_series mem))
        (rollingStd sqrtA w (normalize_series mem))))

/-- Growth rate of a trend-analyzer outcome (`none` when the analyzer
raised or returned the empty dict). -/
def trendGrowthOf (e : Except String (Option TrendResult)) : RQ :=
  match e with
  | Except.ok (some r) => some r.growth_rate
  | _ => none

/-- Significance flag of a trend-analyzer outcome. -/
def trendSignificantOf (e : Except String (Option TrendResult)) : Option Bool :=
  match e with
  | Except.ok (some r) => some r.is_significant
  | _ => none

/-- Regression slope of a trend-analyzer outcome. -/
def trendSlopeOf (e : Except String (Option TrendResult)) : RQ :=
  match e with
  | Except.ok (some r) => r.slope
  | _ => none

/-- Whether the trend analyzer completed normally with a result dict. -/
def trendOk (e : Except String (Option TrendResult)) : Bool :=
  match e with
  | Except.ok (some _) => true
  | _ => false

theorem trend_growth_formula (sqrtA : ℚ → ℚ) (tsf : ℤ → ℚ → ℚ) (w : ℚ)
    (mem : List (ℚ × ℚ))
    (h : trendOk (analyze_memory_trend sqrtA tsf w mem) = true) :
    trendGrowthOf (analyze_memory_trend sqrtA tsf w mem) =
      some (if RQ.ltB (some 0) (trendSlopeOf (analyze_memory_trend sqrtA tsf w mem))
            then (trendSlopeOf (analyze_memory_trend sqrtA tsf w mem)).getD 0
            else 0) := by
  unfold analyze_memory_trend at h ⊢
  by_cases hne : mem.isEmpty
  · rw [if_pos hne] at h
    simp [trendOk] at h
  · rw [if_neg hne] at h ⊢
    cases hlr : linregress sqrtA tsf (elapsedTimes mem) (normalizedValues mem) with
    | error s =>
      rw [hlr] at h
      simp [trendOk] at h
    | ok lr =>
      simp [trendGrowthOf, trendSlopeOf, mkTrendResult]

theorem ltB_some_pos {x : RQ} (h : RQ.ltB (some 0) x = true) :
    ∃ q : ℚ, x = some q ∧ 0 < q := by
  cases x with
  | none => simp [RQ.ltB] at h
  | some q =>
    refine ⟨q, rfl, ?_⟩
    simpa [RQ.ltB] using h

/-- C4 amended: the growth rate of the trend analyzer equals the
regression slope exactly when the slope is positive — regardless of the
p-value; the significance test `p < 0.05` only sets the `is_significant`
flag and does not gate the growth rate — and equals 0 otherwise. -/
theorem C4_growth_rate_ignores_significance :
    ∀ (sqrtA : ℚ → ℚ) (tsf : ℤ → ℚ → ℚ) (w : ℚ) (mem : List (ℚ × ℚ)),
      trendOk (analyze_memory_trend sqrtA tsf w mem) = true →
      (RQ.ltB (some 0) (trendSlopeOf (analyze_memory_trend sqrtA tsf w mem)) = true →
        trendGrowthOf (analyze_memory_trend sqrtA tsf w mem) =
          trendSlopeOf (analyze_memory_trend sqrtA tsf w mem)) ∧
      (RQ.ltB (some 0) (trendSlopeOf (analyze_memory_trend sqrtA tsf w mem)) = false →
        trendGrowthOf (analyze_memory_trend sqrtA tsf w mem) = some 0) := by
  intro sqrtA tsf w mem hok
  have hg := trend_growth_formula sqrtA tsf w mem hok
  constructor
  · intro hb
    rcases ltB_some_pos hb with ⟨q, hq, _⟩
    rw [hg, hb, hq]
    simp
  · intro hb
    rw [hg, hb]
    simp

/-- Square-root stand-in for the concrete evaluations (its value is
irrelevant on the followed code paths). -/
def sqrtA0 : ℚ → ℚ := fun _ => 0

/-- Student-t survival-function stand-in: constant 1/2, which agrees with
the true survival function at 0 (`sf(0, df) = 1/2`). -/
def tsf0 : ℤ → ℚ → ℚ := fun _ _ => 1/2

/-- Concrete increasing memory series for the C4 counterexample. -/
def c4Series : List (ℚ × ℚ) := [(0, 1), (1, 2), (2, 4)]

/-- C4 counterexample: on this series the regression slope is positive
(3/8 on the normalized data) while the p-value is 1 ≥ 0.05, so the run is
not significant — yet the analyzer returns growth rate 3/8 = slope, not
the 0 the claim requires for insignificant positive slopes. -/
theorem C4_counterexample :
    trendSignificantOf (analyze_memory_trend sqrtA0 tsf0 1 c4Series) = some false ∧
    trendSlopeOf (analyze_memory_trend sqrtA0 tsf0 1 c4Series) = some (3/8) ∧
    trendGrowthOf (analyze_memory_trend sqrtA0 tsf0 1 c4Series) = some (3/8) ∧
    ¬ ((3/8 : ℚ) = 0) := by
  refine ⟨?_, ?_, ?_, by norm_num⟩ <;>
    norm_num [analyze_memory_trend, linregress, normalize_series, elapsedTimes,
      normalizedValues, mkTrendResult, slopeOf, pOf, rOf, r0Of, dfOf, targOf,
      tOf, ssxmOf, ssymOf, ssxymOf, rollingMean,
      rollingMeanAux, rollingStd, rollingStdAux, meanL, maxL, sampleStdRQ,
      sampleVar, TINY, RQ.mul, RQ.sub, RQ.ltB, trendSignificantOf, trendSlopeOf,
      trendGrowthOf, c4Series, sqrtA0, tsf0, List.filter_cons, max_def, min_def]

/-- C4 witness: the amended theorem applied at the concrete series. -/
theorem C4_growth_rate_ignores_significance_witness :
    trendGrowthOf (analyze_memory_trend sqrtA0 tsf0 1 c4Series) =
      trendSlopeOf (analyze_memory_trend sqrtA0 tsf0 1 c4Series) :=
  (C4_growth_rate_ignores_significance sqrtA0 tsf0 1 c4Series
    (by norm_num [analyze_memory_trend, linregress, normalize_series, elapsedTimes,
      normalizedValues, mkTrendResult, slopeOf, pOf, rOf, r0Of, dfOf, targOf,
      tOf, ssxmOf, ssymOf, ssxymOf, rollingMean,
      rollingMeanAux, rollingStd, rollingStdAux, meanL, maxL, sampleStdRQ,
      sampleVar, TINY, RQ.mul, RQ.sub, RQ.ltB, trendOk,
      c4Series, sqrtA0, tsf0, List.filter_cons, max_def, min_def])).1
  (by norm_num [analyze_memory_trend, linregress, normalize_series, elapsedTimes,
      normalizedValues, mkTrendResult, slopeOf, pOf, rOf, r0Of, dfOf, targOf,
      tOf, ssxmOf, ssymOf, ssxymOf, rollingMean,
      rollingMeanAux, rollingStd, rollingStdAux, meanL, maxL, sampleStdRQ,
      sampleVar, TINY, RQ.mul, RQ.sub, RQ.ltB, trendSlopeOf,
      c4Series, sqrtA0, tsf0, List.filter_cons, max_def, min_def])

theorem sum_const_list (l : List ℚ) (c : ℚ) (h : ∀ x ∈ l, x = c) :
    l.sum = c * l.length := by
  induction l with
  | nil => simp
  | cons a t ih =>
    have ha : a = c := h a (List.mem_cons_self a t)
    have ht := ih (fun x hx => h x (List.mem_cons_of_mem a hx))
    simp only [List.sum_cons, List.length_cons, ha, ht]
    push_cast
    ring

theorem meanL_const (l : List ℚ) (c : ℚ) (hne : l ≠ []) (h : ∀ x ∈ l, x = c) :
    meanL l = c := by
  have hlen0 : l.length ≠ 0 := fun h0 => hne (List.length_eq_zero.mp h0)
  have hlen : (l.length : ℚ) ≠ 0 := Nat.cast_ne_zero.mpr hlen0
  unfold meanL
  rw [sum_const_list l c h]
  field_simp

theorem meanL_zero (l : List ℚ) (h : ∀ x ∈ l, x = 0) : meanL l = 0 := by
  unfold meanL
  rw [sum_const_list l 0 h]
  simp

theorem ssymOf_const (ys : List ℚ) (c : ℚ) (hne : ys ≠ []) (h : ∀ y ∈ ys, y = c) :
    ssymOf ys = 0 := by
  simp only [ssymOf, meanL_const ys c hne h]
  apply meanL_zero
  intro z hz
  rcases List.mem_map.mp hz with ⟨y, hy, rfl⟩
  rw [h y hy]
  ring

theorem zipWith_dev_zero (xs ys : List ℚ) (a c : ℚ) (h : ∀ y ∈ ys, y = c) :
    ∀ z ∈ List.zipWith (fun x y => (x - a) * (y - c)) xs ys, z = 0 := by
  induction xs generalizing ys with
  | nil => intro z hz; simp at hz
  | cons x xt ih =>
    intro z hz
    cases ys with
    | nil => simp at hz
    | cons y yt =>
      simp only [List.zipWith_cons_cons, List.mem_cons] at hz
      rcases hz with rfl | hz
      · rw [h y (List.mem_cons_self y yt)]; ring
      · exact ih yt (fun y2 hy2 => h y2 (List.mem_cons_of_mem y hy2)) z hz

theorem ssxymOf_const (xs ys : List ℚ) (c : ℚ) (hne : ys ≠ []) (h : ∀ y ∈ ys, y = c) :
    ssxymOf xs ys = 0 := by
  simp only [ssxymOf, meanL_const ys c hne h]
  exact meanL_zero _ (zipWith_dev_zero xs ys (meanL xs) c h)

theorem slopeOf_const_not_pos (xs ys : List ℚ) (c : ℚ) (hne : ys ≠ [])
    (h : ∀ y ∈ ys, y = c) :
    RQ.ltB (some 0) (slopeOf xs ys) = false := by
  unfold slopeOf
  split_ifs with hssxm
  · rfl
  · rw [ssxymOf_const xs ys c hne h]
    simp [RQ.ltB]

theorem rOf_degenerate (sqrtA : ℚ → ℚ) (xs ys : List ℚ)
    (h : ssxmOf xs = 0 ∨ ssymOf ys = 0) : rOf sqrtA xs ys = 0 := by
  have h0 : r0Of sqrtA xs ys = 0 := by
    unfold r0Of
    rw [if_pos h]
  unfold rOf
  rw [h0]
  norm_num

theorem ssxmOf_single : ssxmOf [(0 : ℚ)] = 0 := by
  norm_num [ssxmOf, meanL]

theorem pOf_not_significant (sqrtA : ℚ → ℚ) (tsf : ℤ → ℚ → ℚ)
    (htsf : ∀ d : ℤ, tsf d 0 = 1/2) (xs ys : List ℚ) (c : ℚ)
    (hysne : ys ≠ []) (hys : ∀ y ∈ ys, y = c)
    (hyslen : ys.length = xs.length)
    (hxcase : xs = [0] ∨ 2 ≤ xs.length) :
    RQ.ltB (pOf sqrtA tsf xs ys) (some 0.05) = false := by
  have hTINY : (0 : ℚ) < TINY := by norm_num [TINY]
  rcases hxcase with h1 | h2
  · subst h1
    have hr : rOf sqrtA [0] ys = 0 := rOf_degenerate sqrtA _ ys (Or.inl ssxmOf_single)
    have hdenpos : (0 : ℚ) <
        (1 - rOf sqrtA [0] ys + TINY) * (1 + rOf sqrtA [0] ys + TINY) := by
      rw [hr]; nlinarith
    have htneg : targOf sqrtA [0] ys < 0 := by
      unfold targOf
      apply div_neg_of_neg_of_pos
      · norm_num [dfOf]
      · exact hdenpos
    have hx2 : ¬ (([(0 : ℚ)]).length = 2) := by norm_num
    unfold pOf
    rw [if_neg hx2]
    unfold tOf
    rw [if_pos htneg]
    simp [RQ.mul, RQ.ltB]
  · by_cases hx2 : xs.length = 2
    · obtain ⟨y0, y1, hys2⟩ := List.length_eq_two.mp (hyslen.trans hx2)
      have hy0 : y0 = c := hys y0 (by rw [hys2]; exact List.mem_cons_self _ _)
      have hy1 : y1 = c := hys y1 (by rw [hys2]; simp)
      unfold pOf
      rw [if_pos hx2, hys2]
      simp only [List.getD, hy0, hy1]
      norm_num [RQ.ltB]
    · have hr : rOf sqrtA xs ys = 0 :=
        rOf_degenerate sqrtA xs ys (Or.inr (ssymOf_const ys c hysne hys))
      have hdf : (1 : ℤ) ≤ dfOf xs := by
        unfold dfOf
        have h3 : 3 ≤ xs.length := by omega
        omega
      have hdenpos : (0 : ℚ) <
          (1 - rOf sqrtA xs ys + TINY) * (1 + rOf sqrtA xs ys + TINY) := by
        rw [hr]; nlinarith
      have htnonneg : ¬ (targOf sqrtA xs ys < 0) := by
        push_neg
        unfold targOf
        apply div_nonneg
        · have : (0 : ℤ) ≤ dfOf xs := by omega
          exact_mod_cast this
        · exact le_of_lt hdenpos
      unfold pOf
      rw [if_neg hx2]
      unfold tOf
      rw [if_neg htnonneg, hr]
      simp only [RQ.mul, Option.map_some', zero_mul, abs_zero, htsf (dfOf xs)]
      norm_num [RQ.ltB]

theorem linregress_degenerate_ok (sqrtA : ℚ → ℚ) (tsf : ℤ → ℚ → ℚ)
    (htsf : ∀ d : ℤ, tsf d 0 = 1/2) (xs ys : List ℚ) (c : ℚ)
    (hysne : ys ≠ []) (hys : ∀ y ∈ ys, y = c)
    (hyslen : ys.length = xs.length)
    (hxcase : xs = [0] ∨ (2 ≤ xs.length ∧ ¬ (∀ x ∈ xs, x = xs.headD 0))) :
    linregress sqrtA tsf xs ys =
      Except.ok
        ⟨slopeOf xs ys,
         RQ.sub (some (meanL ys)) (RQ.mul (slopeOf xs ys) (some (meanL xs))),
         rOf sqrtA xs ys,
         pOf sqrtA tsf xs ys⟩ ∧
    RQ.ltB (some 0) (slopeOf xs ys) = false ∧
    RQ.ltB (pOf sqrtA tsf xs ys) (some 0.05) = false := by
  have hxne : xs ≠ [] := by
    rcases hxcase with h1 | h2
    · rw [h1]; simp
    · intro h0
      rw [h0] at h2
      simp at h2
  have hempty : (xs.isEmpty || ys.isEmpty) = false := by
    simp [hxne, hysne]
  have hident : (xs.all (fun x => decide (x = xs.headD 0)) &&
      decide (xs.length > 1)) = false := by
    rcases hxcase with h1 | hc
    · rw [h1]; simp
    · have hall : xs.all (fun x => decide (x = xs.headD 0)) = false := by
        rw [Bool.eq_false_iff]
        intro hall
        apply hc.2
        intro x hx
        have := List.all_eq_true.mp hall x hx
        simpa using this
      rw [hall]
      simp
  refine ⟨?_, slopeOf_const_not_pos xs ys c hysne hys,
    pOf_not_significant sqrtA tsf htsf xs ys c hysne hys hyslen ?_⟩
  · unfold linregress
    rw [hempty, hident]
    simp
  · rcases hxcase with h1 | h2
    · exact Or.inl h1
    · exact Or.inr h2.1

theorem elapsedTimes_single (q : ℚ × ℚ) : elapsedTimes [q] = [0] := by
  simp [elapsedTimes, normalize_series]

theorem elapsedTimes_length (mem : List (ℚ × ℚ)) :
    (elapsedTimes mem).length = mem.length := by
  simp [elapsedTimes, normalize_series]

theorem normalizedValues_length (mem : List (ℚ × ℚ)) :
    (normalizedValues mem).length = mem.length := by
  simp [normalizedValues, normalize_series]

theorem normalizedValues_const (mem : List (ℚ × ℚ)) (c : ℚ)
    (h : ∀ q ∈ mem, q.2 = c) :
    ∀ y ∈ normalizedValues mem, y = c / maxL (mem.map Prod.snd) := by
  intro y hy
  simp only [normalizedValues, normalize_series, List.map_map, List.mem_map] at hy
  rcases hy with ⟨q, hq, rfl⟩
  simp [Function.comp, h q hq]

theorem elapsedTimes_cons2 (p0 p1 : ℚ × ℚ) (rest : List (ℚ × ℚ)) :
    elapsedTimes (p0 :: p1 :: rest) =
      0 :: (p1.1 - p0.1) :: rest.map (fun q => q.1 - p0.1) := by
  simp [elapsedTimes, normalize_series, List.map_map, Function.comp, sub_self]

/-- C5: on a non-empty memory series consisting of a single sample, or
with zero variance (all usage values equal) and strictly increasing
timestamps, the trend analyzer raises no exception and returns growth
rate 0 with significance flag false.  The abstract survival function is
constrained only by the true value `sf(0, df) = 1/2`. -/
theorem C5_degenerate_series_safe :
    ∀ (sqrtA : ℚ → ℚ) (tsf : ℤ → ℚ → ℚ) (w : ℚ) (mem : List (ℚ × ℚ)) (c : ℚ),
      (∀ d : ℤ, tsf d 0 = 1/2) →
      mem ≠ [] →
      (mem.length = 1 ∨
        ((∀ q ∈ mem, q.2 = c) ∧ (mem.map Prod.fst).Chain' (· < ·))) →
      trendOk (analyze_memory_trend sqrtA tsf w mem) = true ∧
      trendGrowthOf (analyze_memory_trend sqrtA tsf w mem) = some 0 ∧
      trendSignificantOf (analyze_memory_trend sqrtA tsf w mem) = some false := by
  intro sqrtA tsf w mem c htsf hne hdeg
  have hysne : normalizedValues mem ≠ [] := by
    intro h0
    have hl := normalizedValues_length mem
    rw [h0] at hl
    exact hne (List.length_eq_zero.mp hl.symm)
  have hyslen : (normalizedValues mem).length = (elapsedTimes mem).length := by
    rw [normalizedValues_length, elapsedTimes_length]
  obtain ⟨c1, hc1⟩ : ∃ c1, ∀ q ∈ mem, q.2 = c1 := by
    by_cases h1 : mem.length = 1
    · obtain ⟨q, rfl⟩ := List.length_eq_one.mp h1
      refine ⟨q.2, ?_⟩
      intro p hp
      rcases List.mem_singleton.mp hp with rfl
      rfl
    · rcases hdeg with h | h
      · exact absurd h h1
      · exact ⟨c, h.1⟩
  have hys := normalizedValues_const mem c1 hc1
  have hxcase : elapsedTimes mem = [0] ∨
      (2 ≤ (elapsedTimes mem).length ∧
        ¬ (∀ x ∈ elapsedTimes mem, x = (elapsedTimes mem).headD 0)) := by
    by_cases h1 : mem.length = 1
    · obtain ⟨q, rfl⟩ := List.length_eq_one.mp h1
      exact Or.inl (elapsedTimes_single q)
    · rcases hdeg with h | h
      · exact absurd h h1
      · obtain ⟨p0, p1, rest, rfl⟩ : ∃ p0 p1 rest, mem = p0 :: p1 :: rest := by
          cases mem with
          | nil => exact absurd rfl hne
          | cons p0 t =>
            cases t with
            | nil => exact absurd rfl h1
            | cons p1 rest => exact ⟨p0, p1, rest, rfl⟩
        refine Or.inr ⟨?_, ?_⟩
        · rw [elapsedTimes_length]
          simp
        · rw [elapsedTimes_cons2]
          intro hall
          have hzero := hall (p1.1 - p0.1) (by simp)
          simp only [List.headD_cons] at hzero
          have hchain := h.2
          simp only [List.map_cons] at hchain
          have hlt : p0.1 < p1.1 := (List.chain'_cons.mp hchain).1
          have : p1.1 = p0.1 := by linarith [sub_eq_zero.mp hzero]
          linarith
  obtain ⟨hok, hslope, hp⟩ := linregress_degenerate_ok sqrtA tsf htsf
    (elapsedTimes mem) (normalizedValues mem) (c1 / maxL (mem.map Prod.snd))
    hysne hys hyslen hxcase
  have hmemne : ¬ (mem.isEmpty = true) := by
    cases mem with
    | nil => exact absurd rfl hne
    | cons a t => simp
  unfold analyze_memory_trend
  rw [if_neg hmemne, hok]
  simp [trendOk, trendGrowthOf, trendSignificantOf, mkTrendResult, hslope, hp]

/-- Constant (zero-variance) concrete memory series. -/
def c5Series : List (ℚ × ℚ) := [(0, 5), (1, 5), (2, 5)]

/-- C5 witness: the theorem applied to a concrete constant series. -/
theorem C5_degenerate_series_safe_witness :
    trendOk (analyze_memory_trend sqrtA0 tsf0 1 c5Series) = true ∧
    trendGrowthOf (analyze_memory_trend sqrtA0 tsf0 1 c5Series) = some 0 ∧
    trendSignificantOf (analyze_memory_trend sqrtA0 tsf0 1 c5Series) = some false :=
  C5_degenerate_series_safe sqrtA0 tsf0 1 c5Series 5
    (fun _ => rfl) (by simp [c5Series])
    (Or.inr ⟨by
        intro q hq
        simp only [c5Series, List.mem_cons, List.not_mem_nil, or_false] at hq
        rcases hq with rfl | rfl | rfl <;> rfl,
      by norm_num [c5Series, List.chain'_cons]⟩)

/- ------------------------------------------------------------------ -/
/- Metrics aggregator: growth duration (source lines 356-360)          -/
/- ------------------------------------------------------------------ -/

/-- Tail of the boolean series `rolling_mean.diff() > 0`. -/
def growthFlagsAux (prev : ℚ × ℚ) : List (ℚ × ℚ) → List (ℚ × Bool)
  | [] => []
  | q :: rest => (q.1, decide (q.2 - prev.2 > 0)) :: growthFlagsAux q rest

/-- Boolean series `rolling_mean.diff() > 0` (source line 358): flag at
each sample whether the rolling mean strictly increased from the previous
sample; the first diff is NaN and `NaN > 0` is false. -/
def growthFlags : List (ℚ × ℚ) → List (ℚ × Bool)
  | [] => []
  | q :: rest => (q.1, false) :: growthFlagsAux q rest

/-- Split a boolean series into maximal runs of equal flag value — the
`groupby((g != g.shift()).cumsum())` of source line 359. -/
def splitRuns : List (ℚ × Bool) → List (List (ℚ × Bool))
  | [] => []
  | x :: xs =>
    match splitRuns xs with
    | [] => [[x]]
    | [] :: rest => [x] :: rest
    | (y :: ys) :: rest =>
      if x.2 = y.2 then (x :: y :: ys) :: rest else [x] :: (y :: ys) :: rest

/-- Wall-clock span of one run: last timestamp minus first, and 0 for
runs of a single sample (source line 360). -/
def runDuration (run : List (ℚ × Bool)) : ℚ :=
  if run.length > 1 then (run.getLastD (0, false)).1 - (run.headD (0, false)).1
  else 0

/-- The code's maximum continuous growth duration (source lines 356-360):
the maximum of `runDuration` over ALL runs — the flag value of a run
(growing or not) is never consulted, so non-growth runs contribute their
span to the maximum too. -/
def max_growth_duration (rm : List (ℚ × ℚ)) : ℚ :=
  maxL ((splitRuns (growthFlags rm)).map runDuration)

/-- The metric as the spec/claim states it: only maximal runs where the
rolling mean strictly increases contribute their wall-clock span; every
other run contributes 0. -/
def spec_max_growth_duration (rm : List (ℚ × ℚ)) : ℚ :=
  maxL ((splitRuns (growthFlags rm)).map
    (fun run => if (run.headD (0, false)).2 = true then runDuration run else 0))

/-- Strictly decreasing rolling-mean series: no growth anywhere. -/
def c6Series : List (ℚ × ℚ) := [(0, 3), (1, 2), (2, 1)]

/-- C6: on a strictly decreasing rolling-mean series (no strictly
increasing step at all) the code returns 2 seconds of "maximum continuous
growth" — the span of the all-False run — while the claim (and the code's
own comment) requires 0 because non-increasing runs must not contribute. -/
theorem C6_nongrowth_runs_counted :
    max_growth_duration c6Series = 2 ∧ spec_max_growth_duration c6Series = 0 := by
  constructor <;>
    norm_num [max_growth_duration, spec_max_growth_duration, c6Series,
      growthFlags, growthFlagsAux, splitRuns, runDuration, maxL, max_def]

/- ------------------------------------------------------------------ -/
/- Result consumers: `interpret` and `plot_memory_leak_analysis`       -/
/- ------------------------------------------------------------------ -/

/-- `interpret` (source lines 487-562) only reads the analysis result —
it contains no assignment to `analysis_result` or its metrics — so its
effect on the metrics record is the identity. -/
def interpret_metrics (m : MemoryMetrics) : MemoryMetrics := m

/-- The metrics mutation performed by `plot_memory_leak_analysis` (source
lines 579-584): when the memory-usage table is non-empty, the stored
regression intercept and slope are multiplied in place by the maximum raw
memory usage ("scale the trend line back"); with an empty table the
metrics are untouched. -/
def plot_memory_leak_analysis_metrics (m : MemoryMetrics)
    (memUsage : List (ℚ × ℚ)) : MemoryMetrics :=
  if memUsage.isEmpty then m
  else
    { m with
      regression_intercept :=
        RQ.mul m.regression_intercept (some (maxL (memUsage.map Prod.snd)))
      regression_slope :=
        RQ.mul m.regression_slope (some (maxL (memUsage.map Prod.snd))) }

/-- Metrics with non-trivial regression coefficients. -/
def c9Metrics : MemoryMetrics := ⟨0, 1, 0, 0, 0, 0, some 2, some 3⟩

/-- Concrete raw memory-usage table with maximum 10. -/
def c9Mem : List (ℚ × ℚ) := [(0, 5), (1, 10)]

/-- C9 counterexample: one `plot_memory_leak_analysis` call multiplies the
stored regression slope by the maximum memory usage (2 becomes 20), so a
subsequent call on the module does mutate the result's metrics record. -/
theorem C9_counterexample :
    (plot_memory_leak_analysis_metrics c9Metrics c9Mem).regression_slope = some 20 ∧
    c9Metrics.regression_slope = some 2 ∧
    ¬ ((plot_memory_leak_analysis_metrics c9Metrics c9Mem).regression_slope =
        c9Metrics.regression_slope) := by
  norm_num [plot_memory_leak_analysis_metrics, c9Metrics, c9Mem, RQ.mul,
    maxL, max_def]

/-- C9 amended: `interpret` leaves the metrics unchanged; the plot call
leaves them unchanged when the memory table is empty, and otherwise
multiplies exactly the regression slope and intercept in place by the
maximum raw memory usage, leaving the other six fields unchanged (so
repeated plot calls compound the scaling). -/
theorem C9_metrics_mutation :
    ∀ (m : MemoryMetrics) (memUsage : List (ℚ × ℚ)),
      interpret_metrics m = m ∧
      (memUsage = [] → plot_memory_leak_analysis_metrics m memUsage = m) ∧
      (memUsage ≠ [] →
        (plot_memory_leak_analysis_metrics m memUsage).regression_slope =
          RQ.mul m.regression_slope (some (maxL (memUsage.map Prod.snd))) ∧
        (plot_memory_leak_analysis_metrics m memUsage).regression_intercept =
          RQ.mul m.regression_intercept (some (maxL (memUsage.map Prod.snd))) ∧
        (plot_memory_leak_analysis_metrics m memUsage).unreleased_allocations =
          m.unreleased_allocations ∧
        (plot_memory_leak_analysis_metrics m memUsage).total_allocations =
          m.total_allocations ∧
        (plot_memory_leak_analysis_metrics m memUsage).leak_rate = m.leak_rate ∧
        (plot_memory_leak_analysis_metrics m memUsage).avg_allocation_size =
          m.avg_allocation_size ∧
        (plot_memory_leak_analysis_metrics m memUsage).max_continuous_growth_duration =
          m.max_continuous_growth_duration ∧
        (plot_memory_leak_analysis_metrics m memUsage).memory_fragmentation_score =
          m.memory_fragmentation_score) := by
  intro m mu
  refine ⟨rfl, ?_, ?_⟩
  · intro h
    simp [plot_memory_leak_analysis_metrics, h]
  · intro h
    have hf : mu.isEmpty = false := by
      cases mu with
      | nil => exact absurd rfl h
      | cons a t => rfl
    simp [plot_memory_leak_analysis_metrics, hf]

/-- C9 witness: the amended theorem at the concrete metrics and table. -/
theorem C9_metrics_mutation_witness :
    (plot_memory_leak_analysis_metrics c9Metrics c9Mem).regression_slope =
      RQ.mul c9Metrics.regression_slope (some (maxL (c9Mem.map Prod.snd))) :=
  ((C9_metrics_mutation c9Metrics c9Mem).2.2 (by simp [c9Mem])).1

/- ------------------------------------------------------------------ -/
/- Allocation pattern analyzer (source lines 286-323)                  -/
/- ------------------------------------------------------------------ -/

/-- Output record of `_analyze_allocation_patterns` (source lines
315-323). -/
structure AllocationPatterns where
  allocation_frequency : List ℕ
  mean_allocation_size : ℚ
  median_allocation_size : ℚ
  size_std : RQ
  total_allocations : ℕ
  unique_sizes : ℕ
  null_size_count : ℕ
deriving DecidableEq

/-- Resampled event counts per fixed-width window (source line 309),
anchored at the earliest event timestamp; empty intermediate buckets
count 0, as with pandas `resample(...).size()`.  (pandas anchors bins at
a calendar origin rather than the first event; the anchoring offset
affects none of the verified properties.) -/
def resampleCounts (w : ℚ) (ts : List ℚ) : List ℕ :=
  if ts.isEmpty then []
  else
    (List.range ((Int.floor ((maxL ts - minL ts) / w)).toNat + 1)).map
      (fun k => (ts.filter
        (fun t => decide (Int.floor ((t - minL ts) / w) = (k : ℤ)))).length)

/-- `_analyze_allocation_patterns` (source lines 286-323): `none` models
the empty dict returned for a missing/empty events table; size statistics
ignore missing (NaN) sizes but missing sizes still count toward the
total. -/
def analyze_allocation_patterns (sqrtA : ℚ → ℚ) (w : ℚ) (events : List Event) :
    Option AllocationPatterns :=
  if events.isEmpty then none
  else
    let allocation_events := allocationsOf events
    let valid_sizes := allocation_events.filterMap Event.size
    some
      { allocation_frequency := resampleCounts w (allocation_events.map Event.time)
        mean_allocation_size := if valid_sizes.isEmpty then 0 else meanL valid_sizes
        median_allocation_size := if valid_sizes.isEmpty then 0 else medianL valid_sizes
        size_std := if valid_sizes.isEmpty then some 0 else sampleStdRQ sqrtA valid_sizes
        total_allocations := allocation_events.length
        unique_sizes := if valid_sizes.isEmpty then 0 else valid_sizes.eraseDups.length
        null_size_count :=
          (allocation_events.filter (fun e => decide (e.size = none))).length }

/- ------------------------------------------------------------------ -/
/- Metrics aggregator (source lines 325-371)                           -/
/- ------------------------------------------------------------------ -/

/-- `_calculate_memory_metrics` (source lines 325-371): unreleased count,
fragmentation ratio over the lifecycle table, the trend growth rate as
leak rate, and the (buggy, see C6) maximum continuous growth duration
over the rolling mean. -/
def calculate_memory_metrics (ptr_tracking : List LifecycleRow)
    (trend : TrendResult) (ap : AllocationPatterns) : MemoryMetrics :=
  let unreleased :=
    (ptr_tracking.filter (fun r => decide (r.deallocation_time = none))).length
  let fragmentation_score : ℚ :=
    if ptr_tracking.isEmpty then 0
    else if ptr_tracking.length > 0 then
      (unreleased : ℚ) / (ptr_tracking.length : ℚ)
    else 0
  { unreleased_allocations := unreleased
    total_allocations := ap.total_allocations
    leak_rate := trend.growth_rate
    avg_allocation_size := ap.mean_allocation_size
    max_continuous_growth_duration := max_growth_duration trend.rolling_mean
    memory_fragmentation_score := fragmentation_score
    regression_slope := trend.slope
    regression_intercept := trend.intercept }

/- ------------------------------------------------------------------ -/
/- Suspicious location ranker (source lines 423-456)                   -/
/- ------------------------------------------------------------------ -/

/-- One row of the suspicious-locations table (source line 454). -/
structure SuspiciousLoc where
  ptr : String
  total_bytes : ℚ
  allocation_count : ℕ
  event_context : String
deriving DecidableEq

/-- `_identify_suspicious_locations` (source lines 423-456): allocation
events of never-freed pointers, grouped per pointer (sum of sizes with
NaN skipped, pandas `count` of non-null sizes, first event type as
context), sorted by total retained bytes descending.  The pandas groupby
orders groups by pointer before the final sort; that intermediate order
only matters for ties, which no verified property depends on. -/
def identify_suspicious_locations (events : List Event)
    (ptr_tracking : List LifecycleRow) : List SuspiciousLoc :=
  if events.isEmpty then []
  else
    let unfreed := (ptr_tracking.filter
      (fun r => decide (r.deallocation_time = none))).map LifecycleRow.ptr
    let suspicious := events.filter
      (fun e => decide (e.category = allocationCat) && decide (e.ptr ∈ unfreed))
    let rows : List SuspiciousLoc :=
      ((suspicious.map Event.ptr).eraseDups).map (fun p =>
        { ptr := p
          total_bytes := ((suspicious.filter
            (fun e => decide (e.ptr = p))).filterMap Event.size).sum
          allocation_count := ((suspicious.filter
            (fun e => decide (e.ptr = p))).filterMap Event.size).length
          event_context := ((suspicious.filter
            (fun e => decide (e.ptr = p))).headD defaultEvent).eventType })
    List.insertionSort (fun a b => b.total_bytes ≤ a.total_bytes) rows

/- ------------------------------------------------------------------ -/
/- Pattern narrator (source lines 458-485)                             -/
/- ------------------------------------------------------------------ -/

/-- Message for the irregular-allocation finding. -/
def irregularMsg : String := "Irregular allocation pattern detected"

/-- Message for the volatility finding. -/
def volatilityMsg : String := "High memory usage volatility detected"

/-- Leading text of the systematic-growth finding. -/
def growthMsgHead : String := "Systematic memory growth detected: "

/-- Space separator used in the growth finding. -/
def spaceStr : String := " "

/-- Unit suffix of the growth finding. -/
def perSecondStr : String := "/s"

/-- `_collect_detected_patterns` (source lines 458-485); `fmt2` renders a
float with two decimals (Python `.2f` format) and `fmtBytes` is
`Formatter.format_bytes` returning (scaled value, unit) — both external
to `src/`, passed as parameters.  Conditions follow the source: growth
finding iff significant and slope > 0; irregular iff the std of the
allocation-frequency series exceeds its mean; volatility iff the mean
rolling std exceeds 10% of the mean rolling mean (NaN comparisons
false). -/
def collect_detected_patterns (sqrtA : ℚ → ℚ) (fmt2 : ℚ → String)
    (fmtBytes : ℚ → ℚ × String) (trend : TrendResult)
    (ap : AllocationPatterns) : List String :=
  (if trend.is_significant && RQ.ltB (some 0) trend.slope then
    [growthMsgHead ++ fmt2 (fmtBytes trend.growth_rate).1 ++ spaceStr ++
      (fmtBytes trend.growth_rate).2 ++ perSecondStr]
  else []) ++
  (if RQ.ltB (meanRQ (ap.allocation_frequency.map (fun n => (n : ℚ))))
      (sampleStdRQ sqrtA (ap.allocation_frequency.map (fun n => (n : ℚ)))) then
    [irregularMsg]
  else []) ++
  (if RQ.ltB (RQ.mul (meanRQ (trend.rolling_mean.map Prod.snd)) (some 0.1))
      (meanSkipNA (trend.rolling_std.map Prod.snd)) then
    [volatilityMsg]
  else [])

/- ------------------------------------------------------------------ -/
/- Top-level orchestration (`analyze_memory_leaks`, lines 141-195)     -/
/- ------------------------------------------------------------------ -/

/-- The module's dataframe state after `_process`/`_post_process`:
`none` models an absent table. -/
structure ModuleState where
  eventsTable : Option (List Event)
  memoryUsage : Option (List (ℚ × ℚ))

/-- Whether a table is missing (`None`) or empty (`.empty`). -/
def tableMissingOrEmpty {α : Type} : Option (List α) → Bool
  | none => true
  | some l => l.isEmpty

/-- The insufficient-data guard of `analyze_memory_leaks` (source lines
164-165). -/
def insufficient_data (st : ModuleState) : Bool :=
  tableMissingOrEmpty st.eventsTable || tableMissingOrEmpty st.memoryUsage

/-- `LeakAnalysisResult` dataclass (source lines 43-49). -/
structure LeakAnalysisResult where
  severity : MemoryLeakSeverity
  confidence_score : ℚ
  metrics : MemoryMetrics
  detected_patterns : List String
  suspicious_locations : List SuspiciousLoc
deriving DecidableEq

/-- The neutral result returned on insufficient data (source lines
167-173). -/
def neutralResult : LeakAnalysisResult :=
  ⟨MemoryLeakSeverity.NONE, 0, ⟨0, 0, 0, 0, 0, 0, some 0, some 0⟩, [], []⟩

/-- `analyze_memory_leaks` (source lines 141-195): the insufficient-data
guard returns the neutral result; otherwise the pipeline runs lifecycle
tracking, trend analysis, allocation patterns, metrics aggregation,
severity evaluation (which can raise `ZeroDivisionError`, see C3),
suspicious-location ranking and pattern narration.  The guard guarantees
both tables are non-empty past it, so the `Except.error keyErrorMsg`
arms — what Python would raise if `_analyze_memory_trend` or
`_analyze_allocation_patterns` returned their empty dict — are
unreachable. -/
def analyze_memory_leaks (sqrtA : ℚ → ℚ) (tsf : ℤ → ℚ → ℚ)
    (fmt2 : ℚ → String) (fmtBytes : ℚ → ℚ × String)
    (window_size fragmentation_threshold slope_threshold : ℚ)
    (st : ModuleState) : Except String LeakAnalysisResult :=
  if insufficient_data st then Except.ok neutralResult
  else
    match st.eventsTable, st.memoryUsage with
    | some events, some mem =>
      match analyze_memory_trend sqrtA tsf window_size mem with
      | Except.error e => Except.error e
      | Except.ok none => Except.error keyErrorMsg
      | Except.ok (some memory_trend) =>
        match analyze_allocation_patterns sqrtA window_size events with
        | none => Except.error keyErrorMsg
        | some allocation_patterns =>
          match evaluate_severity
              ⟨window_size, fragmentation_threshold, slope_threshold⟩
              (calculate_memory_metrics (track_pointer_lifecycle events)
                memory_trend allocation_patterns)
              memory_trend.p_value with
          | Except.error e => Except.error e
          | Except.ok (severity, confidence) =>
            Except.ok
              { severity := severity
                confidence_score := confidence
                metrics := calculate_memory_metrics (track_pointer_lifecycle events)
                  memory_trend allocation_patterns
                detected_patterns := collect_detected_patterns sqrtA fmt2 fmtBytes
                  memory_trend allocation_patterns
                suspicious_locations := identify_suspicious_locations events
                  (track_pointer_lifecycle events) }
    | _, _ => Except.error keyErrorMsg

/-- C1: whenever the events table or the memory-usage table is missing or
empty — including the case where `_post_process` replaced a raw table
lacking the `size`/`ptr` columns by an empty one — `analyze_memory_leaks`
raises no exception and returns the neutral result: severity NONE,
confidence 0, all eight metric fields 0, an empty pattern list and an
empty suspicious-locations table. -/
theorem C1_insufficient_data_neutral :
    ∀ (sqrtA : ℚ → ℚ) (tsf : ℤ → ℚ → ℚ) (fmt2 : ℚ → String)
      (fmtBytes : ℚ → ℚ × String) (w f s : ℚ) (st : ModuleState),
      (st.eventsTable = none ∨ st.eventsTable = some [] ∨
       st.memoryUsage = none ∨ st.memoryUsage = some []) →
      (analyze_memory_leaks sqrtA tsf fmt2 fmtBytes w f s st =
          Except.ok neutralResult ∧
        neutralResult.severity = MemoryLeakSeverity.NONE ∧
        neutralResult.confidence_score = 0 ∧
        neutralResult.metrics = ⟨0, 0, 0, 0, 0, 0, some 0, some 0⟩ ∧
        neutralResult.detected_patterns = [] ∧
        neutralResult.suspicious_locations = []) ∧
      (∀ raw : RawEventsTable, raw.hasSizePtrColumns = false →
        post_process (some raw) = some []) := by
  intro sqrtA tsf fmt2 fmtBytes w f s st hmiss
  constructor
  · have hguard : insufficient_data st = true := by
      rcases hmiss with h | h | h | h <;>
        simp [insufficient_data, tableMissingOrEmpty, h]
    refine ⟨?_, rfl, rfl, rfl, rfl, rfl⟩
    unfold analyze_memory_leaks
    rw [hguard]
    rfl
  · intro raw hraw
    simp [post_process, hraw]

/-- Concrete post-processed state: events table emptied (as after a
missing-columns raw table), one memory sample present. -/
def c1State : ModuleState := ⟨some [], some [(0, 1)]⟩

/-- C1 witness: the theorem applied at a concrete module state. -/
theorem C1_insufficient_data_neutral_witness :
    analyze_memory_leaks sqrtA0 tsf0 (fun _ => emptyStr) (fun v => (v, emptyStr))
      1 0.7 0.5 c1State = Except.ok neutralResult :=
  ((C1_insufficient_data_neutral sqrtA0 tsf0 (fun _ => emptyStr)
      (fun v => (v, emptyStr)) 1 0.7 0.5 c1State
      (Or.inr (Or.inl rfl))).1).1
